import Mathlib

/-!
Verification development for the data-recorder backend (`data-processor`).

Shallow embedding of the Rust sources:
  * `src/device_communication.rs` : frame codec (`ProtocolParser`), device
    session (`DeviceManager`);
  * `src/data_processing.rs`      : sample decoder and burst accumulator
    (`DataProcessor`);
  * `src/websocket.rs`            : subscription fan-out (`WebSocketServer`).

Bytes are modelled as `Nat` (with explicit `< 256` side conditions and
`% 2 ^ 16` where u16 truncation happens in the source); `f64` sample
arithmetic is modelled exactly over `ℚ`; wall-clock reads
(`Instant::now`, `Utc::now`) are passed in as explicit parameters.
-/

namespace Codec

/-- Frame head bytes `FRAME_HEAD = [0xAA, 0x55]` from `device_communication.rs`. -/
def FRAME_HEAD : List Nat := [0xAA, 0x55]

/-- Frame tail bytes `FRAME_TAIL = [0x55, 0xAA]`. -/
def FRAME_TAIL : List Nat := [0x55, 0xAA]

/-- `RawFrame` from `device_communication.rs` (the `_timestamp : Instant`
field is wall-clock-only and carried by no claim, so it is omitted). -/
structure RawFrame where
  command_id : Nat
  sequence : Nat
  payload : List Nat
  deriving Repr, DecidableEq

/-- One round of the CRC-16/MODBUS inner loop:
`if crc & 1 != 0 { (crc >> 1) ^ 0xA001 } else { crc >> 1 }`. -/
def crcRound (crc : Nat) : Nat :=
  if crc % 2 = 1 then (crc / 2) ^^^ 0xA001 else crc / 2

/-- Per-byte CRC step: `crc ^= b` followed by eight `crcRound`s. -/
def crcByte (crc b : Nat) : Nat :=
  crcRound (crcRound (crcRound (crcRound (crcRound (crcRound (crcRound (crcRound (crc ^^^ b))))))))

/-- `ProtocolParser::crc16`: fold `crcByte` over the data, init `0xFFFF`. -/
def crc16 (data : List Nat) : Nat :=
  data.foldl crcByte 0xFFFF

/-- `ProtocolParser::build_frame(command, seq, payload)`.
`LEN = 1(cmd) + 1(seq) + payload.len() + 2(crc)` is written as a `u16`
(`len as u16`, hence `% 2 ^ 16`); CRC is computed over `CMD SEQ PAYLOAD`. -/
def build_frame (command seq : Nat) (payload : List Nat) : List Nat :=
  let len := (1 + 1 + payload.length + 2) % 2 ^ 16
  let crc := crc16 (command :: seq :: payload)
  0xAA :: 0x55 :: (len % 256) :: (len / 256 % 256) :: command :: seq ::
    (payload ++ [crc % 256, crc / 256 % 256, 0x55, 0xAA])

/-- `ProtocolParser::find_frame_start`: index of the first adjacent pair
`0xAA 0x55` (the Rust loop scans `i` in `0 .. len-1`); `none` when the
buffer has no such pair (including length `< 2`). -/
def find_frame_start : List Nat → Option Nat
  | a :: b :: rest =>
      if a = 0xAA ∧ b = 0x55 then some 0
      else (find_frame_start (b :: rest)).map (fun n => n + 1)
  | _ => none

/-- `ProtocolParser::try_parse_one`, as a function from the buffer to the
parse result together with the new buffer contents (the Rust method
mutates `self.buf` by `advance`, modelled as `List.drop`). -/
def try_parse_one (buf : List Nat) : Option RawFrame × List Nat :=
  match find_frame_start buf with
  | none => (none, buf)
  | some start =>
    let b := buf.drop start
    if b.length < 10 then (none, b)
    else if ¬ (b.getD 0 0 = 0xAA ∧ b.getD 1 0 = 0x55) then (none, b.drop 1)
    else
      -- LEN little-endian at offsets 2,3; total = head(2)+len(2)+LEN+tail(2)
      let len := b.getD 2 0 + 256 * b.getD 3 0
      let total := 4 + len + 2
      if b.length < total then (none, b)
      else if ¬ (b.getD (total - 2) 0 = 0x55 ∧ b.getD (total - 1) 0 = 0xAA) then (none, b.drop 1)
      else
        let cmd := b.getD 4 0
        let seq := b.getD 5 0
        let payload_len := len - 4
        let payload := (b.drop 6).take payload_len
        let crc_pos := 6 + payload_len
        let rx_crc := b.getD crc_pos 0 + 256 * b.getD (crc_pos + 1) 0
        let calc_crc := crc16 ((b.drop 4).take (crc_pos - 4))
        if rx_crc ≠ calc_crc then (none, b.drop 1)
        else (some ⟨cmd, seq, payload⟩, b.drop total)

/-- `ProtocolParser::parse_frames` loop body, with explicit fuel.  The Rust
loop runs while `buf.len() >= 10`, pushing each parsed frame and stopping at
the first `None`; every successful parse consumes at least six bytes, so
fuel equal to the buffer length never runs out before the loop exits. -/
def parse_frames_fuel : Nat → List Nat → List RawFrame × List Nat
  | 0, buf => ([], buf)
  | fuel + 1, buf =>
    if buf.length < 10 then ([], buf)
    else
      match try_parse_one buf with
      | (some f, buf2) =>
        let r := parse_frames_fuel fuel buf2
        (f :: r.1, r.2)
      | (none, buf2) => ([], buf2)

/-- `ProtocolParser::feed_data`: extend the buffer with the chunk, then run
the parse loop.  Returns the emitted frames and the final buffer. -/
def feed_data (st : List Nat) (data : List Nat) : List RawFrame × List Nat :=
  parse_frames_fuel (st ++ data).length (st ++ data)

/-- The decoder state in which `try_parse_one` leaves the buffer untouched:
no frame head occurs anywhere, or the buffer starts with a head (no garbage
prefix to discard) but holds fewer bytes than the minimal frame or than the
advertised total frame size — in both situations more input is awaited. -/
def awaiting_more (buf : List Nat) : Bool :=
  match find_frame_start buf with
  | none => true
  | some start =>
    let b := buf.drop start
    if b.length < 10 then decide (start = 0)
    else decide (start = 0 ∧ b.length < 4 + (b.getD 2 0 + 256 * b.getD 3 0) + 2)

end Codec

namespace Device

/-- `DataType` from `device_communication.rs`. -/
inductive DataType where
  | Continuous
  | Trigger (trigger_timestamp : Nat) (is_complete : Bool)
  deriving Repr, DecidableEq

/-- `DataPacket` from `device_communication.rs` (bytes as `Nat`). -/
structure DataPacket where
  timestamp_ms : Nat
  enabled_channels : Nat
  sample_count : Nat
  sensor_data : List Nat
  data_type : DataType
  deriving Repr, DecidableEq

/-- `TriggerEvent` from `device_communication.rs`. -/
structure TriggerEvent where
  timestamp : Nat
  channel : Nat
  pre_samples : Nat
  post_samples : Nat
  deriving Repr, DecidableEq

end Device

namespace Proc

/-- `DataSource` from `data_processing.rs`. -/
inductive DataSource where
  | Continuous
  | Trigger
  deriving Repr, DecidableEq

/-- `TriggerInfo` from `data_processing.rs`. -/
structure TriggerInfo where
  trigger_timestamp : Nat
  is_complete : Bool
  sequence_in_burst : Option Nat
  deriving Repr, DecidableEq

/-- `ProcessedDataType` from `data_processing.rs`. -/
structure ProcessedDataType where
  source : DataSource
  trigger_info : Option TriggerInfo
  deriving Repr, DecidableEq

/-- `ChannelMetadata` from `data_processing.rs`; `f64` fields modelled over `ℚ`. -/
structure ChannelMetadata where
  channel_id : Nat
  sample_count : Nat
  min_value : ℚ
  max_value : ℚ
  avg_value : ℚ
  deriving Repr, DecidableEq

/-- `DataQuality` from `data_processing.rs`.  The source formats dynamic
values into the message strings; the spec forbids consumers to pattern-match
on that free text, and no claim inspects it, so the messages are modelled by
their fixed prefixes. -/
inductive DataQuality where
  | Good
  | Warning (msg : String)
  | Error (msg : String)
  deriving Repr, DecidableEq

/-- `DataMetadata` from `data_processing.rs`. -/
structure DataMetadata where
  packet_count : Nat
  processing_time_us : Nat
  data_quality : DataQuality
  channel_info : List ChannelMetadata
  deriving Repr, DecidableEq

/-- `ProcessedData` from `data_processing.rs`. -/
structure ProcessedData where
  timestamp : Nat
  sequence : Nat
  channel_count : Nat
  sample_rate : ℚ
  data : List ℚ
  metadata : DataMetadata
  data_type : ProcessedDataType
  deriving Repr, DecidableEq

/-- `ChannelStats` from `data_processing.rs`.  The source stores
`rms = sqrt(sum_squares / count)` in `f64`; the square root is not exactly
representable over `ℚ`, so the mean square (the value under the root) is
carried instead.  No claim mentions this field. -/
structure ChannelStats where
  channel_id : Nat
  sample_count : Nat
  min_value : ℚ
  max_value : ℚ
  avg_value : ℚ
  rms_sq_value : ℚ
  deriving Repr, DecidableEq

/-- `DataQualitySummary` from `data_processing.rs`. -/
structure DataQualitySummary where
  overall_quality : DataQuality
  channel_stats : List ChannelStats
  voltage_range : ℚ × ℚ
  anomaly_count : Nat
  deriving Repr, DecidableEq

/-- `TriggerBurst` from `data_processing.rs` (`created_at : i64` epoch
milliseconds, always nonnegative, modelled as `Nat`). -/
structure TriggerBurst where
  burst_id : String
  trigger_timestamp : Nat
  trigger_channel : Nat
  pre_samples : Nat
  post_samples : Nat
  data_packets : List ProcessedData
  is_complete : Bool
  total_samples : Nat
  created_at : Nat
  quality_summary : DataQualitySummary
  deriving Repr, DecidableEq

/-- `DataProcessor` state from `data_processing.rs`.  The
`HashMap<String, TriggerBurst>` is modelled as an association list with
unique keys (`insert` replaces, iteration order is insertion order; the
Rust iteration order is unspecified, which claims only touch through the
stable sort on distinct `created_at` keys). -/
structure DataProcessor where
  packet_sequence : Nat
  trigger_burst_sequence : Nat
  current_trigger_timestamp : Option Nat
  current_trigger_burst : Option TriggerBurst
  completed_trigger_bursts : List (String × TriggerBurst)
  max_cached_bursts : Nat
  deriving Repr, DecidableEq

/-- `DataProcessor::new()`. -/
def DataProcessor.new : DataProcessor :=
  { packet_sequence := 0
    trigger_burst_sequence := 0
    current_trigger_timestamp := none
    current_trigger_burst := none
    completed_trigger_bursts := []
    max_cached_bursts := 10 }

/-- Stand-in for `f64::INFINITY` as a fold seed: every sample produced by the
decoder lies in `[0, 3.3)` (and every mean of such values too), so any
rational above that range behaves exactly like infinity in the source's
min/max folds and threshold comparisons. -/
def INF : ℚ := 10 ^ 9

def fold_min (l : List ℚ) : ℚ := l.foldl min INF

def fold_max (l : List ℚ) : ℚ := l.foldl max (-INF)

def fold_sum (l : List ℚ) : ℚ := l.foldl (fun a b => a + b) 0

def fold_sum_sq (l : List ℚ) : ℚ := l.foldl (fun a b => a + b * b) 0

/-- `u16::count_ones` on the 16-bit channel mask. -/
def count_ones (mask : Nat) : Nat :=
  ((List.range 16).filter (fun b => mask.testBit b)).length

/-- `DataProcessor::get_channel_id_from_mask`: walk bits `0..16` counting
set bits until the count reaches `index` (i.e. the `index`-th set bit,
LSB first); fall back to `index` itself when the mask has too few set
bits. -/
def get_channel_id_from_mask (mask index : Nat) : Nat :=
  ((List.range 16).filter (fun b => mask.testBit b)).getD index index

/-- `i16::from_le_bytes` on two bytes. -/
def i16_from_le (lo hi : Nat) : Int :=
  let v := lo + 256 * hi
  if v < 32768 then (v : Int) else (v : Int) - 65536

/-- The per-sample conversion at `data_processing.rs:171`:
`((raw as f64 + 32768.0) / 65535.0) * 3.3`, exactly over `ℚ`. -/
def sample_voltage (raw : Int) : ℚ :=
  ((raw : ℚ) + 32768) / 65535 * (33 / 10)

/-- `chunks_exact(2)` (drops a trailing odd byte, which never occurs after
validation). -/
def chunk_pairs : List Nat → List (Nat × Nat)
  | a :: b :: rest => (a, b) :: chunk_pairs rest
  | _ => []

/-- The samples of channel slot `ch_idx` (non-interleaved layout): bytes
`[ch_idx * sample_count * 2, (ch_idx+1) * sample_count * 2)` decoded as
little-endian `i16` and scaled. -/
def channel_samples (sensor_data : List Nat) (sample_count ch_idx : Nat) : List ℚ :=
  (chunk_pairs ((sensor_data.drop (ch_idx * sample_count * 2)).take (sample_count * 2))).map
    (fun p => sample_voltage (i16_from_le p.1 p.2))

/-- `DataProcessor::apply_filter`: 5-point moving average away from the
edges, identity for at most five samples. -/
def apply_filter (samples : List ℚ) : List ℚ :=
  if samples.length ≤ 5 then samples
  else
    (List.range samples.length).map fun i =>
      if i < 2 ∨ i + 2 ≥ samples.length then samples.getD i 0
      else (samples.getD (i - 2) 0 + samples.getD (i - 1) 0 + samples.getD i 0
            + samples.getD (i + 1) 0 + samples.getD (i + 2) 0) / 5

/-- The per-channel checks of `DataProcessor::assess_data_quality`, in
source order (saturation first, then flatness), first hit wins. -/
def assess_channels : List ChannelMetadata → DataQuality
  | [] => .Good
  | ch :: rest =>
    if ch.min_value ≤ 1 / 20 ∨ ch.max_value ≥ 13 / 4 then
      .Warning "Channel near saturation"
    else if ch.max_value - ch.min_value < 1 / 1000 then
      .Warning "Channel signal too flat"
    else assess_channels rest

/-- `DataProcessor::assess_data_quality`. -/
def assess_data_quality (samples : List ℚ) (channel_info : List ChannelMetadata) : DataQuality :=
  if samples.isEmpty then .Error "No samples"
  else if fold_min samples < -(1 / 10) ∨ fold_max samples > 17 / 5 then
    .Warning "Voltage out of range"
  else assess_channels channel_info

/-- `DataProcessor::estimate_sample_rate` (the division
`sample_count / channel_count.max(1)` is `usize` integer division). -/
def estimate_sample_rate (sample_count channel_count : Nat) : ℚ :=
  let packet_interval_ms : ℚ := 10
  let samples_per_channel : Nat := sample_count / max channel_count 1
  ((samples_per_channel : ℚ) / packet_interval_ms) * 1000

/-- The `ChannelMetadata` record built in the channel loop of
`DataProcessor::process_packet`. -/
def channel_meta (packet : Device.DataPacket) (ch_idx : Nat) : ChannelMetadata :=
  let cs := channel_samples packet.sensor_data packet.sample_count ch_idx
  { channel_id := get_channel_id_from_mask packet.enabled_channels ch_idx
    sample_count := packet.sample_count
    min_value := fold_min cs
    max_value := fold_max cs
    avg_value := if packet.sample_count > 0 then fold_sum cs / packet.sample_count else 0 }

/-- `DataProcessor::process_packet`.  `self` is threaded explicitly; the
`Instant`-based `processing_time_us` is wall-clock and passed in as a
parameter.  The source increments `packet_sequence` before any validation,
so rejected packets also consume a sequence number. -/
def process_packet (s : DataProcessor) (packet : Device.DataPacket)
    (processing_time_us : Nat) : Except String ProcessedData × DataProcessor :=
  let s1 := { s with packet_sequence := s.packet_sequence + 1 }
  let channel_count := count_ones packet.enabled_channels
  let sample_count := packet.sample_count
  if channel_count = 0 then (.error "No enabled channels", s1)
  else if packet.sensor_data.length ≠ channel_count * sample_count * 2 then
    (.error "Data length mismatch", s1)
  else
    -- the source's `end_idx <= sensor_data.len()` guard always holds after
    -- the length validation, and take/drop clip identically
    let channel_metadata := (List.range channel_count).map (channel_meta packet)
    let all_samples :=
      ((List.range channel_count).map
        (channel_samples packet.sensor_data sample_count)).flatten
    let filtered := apply_filter all_samples
    let quality := assess_data_quality filtered channel_metadata
    let step : ProcessedDataType × DataProcessor :=
      match packet.data_type with
      | .Continuous =>
        (⟨.Continuous, none⟩,
         { s1 with current_trigger_timestamp := none, trigger_burst_sequence := 0 })
      | .Trigger ts complete =>
        let s2a :=
          if s1.current_trigger_timestamp ≠ some ts then
            { s1 with current_trigger_timestamp := some ts, trigger_burst_sequence := 0 }
          else s1
        let s2 := { s2a with trigger_burst_sequence := s2a.trigger_burst_sequence + 1 }
        (⟨.Trigger, some ⟨ts, complete, some s2.trigger_burst_sequence⟩⟩, s2)
    let processed : ProcessedData :=
      { timestamp := packet.timestamp_ms
        sequence := s1.packet_sequence
        channel_count := channel_count
        sample_rate := estimate_sample_rate sample_count channel_count
        data := filtered
        metadata :=
          { packet_count := s1.packet_sequence
            processing_time_us := processing_time_us
            data_quality := quality
            channel_info := channel_metadata }
        data_type := step.1 }
    let s3 :=
      match packet.data_type with
      | .Trigger _ _ =>
        match step.2.current_trigger_burst with
        | some burst =>
          let burst2 := { burst with
            data_packets := burst.data_packets ++ [processed]
            total_samples := burst.total_samples + processed.data.length }
          { step.2 with current_trigger_burst := some burst2 }
        | none => step.2
      | .Continuous => step.2
    (.ok processed, s3)

/-- `DataProcessor::start_trigger_burst`; the two `Utc::now()` reads in the
source (for the `burst_id` suffix and for `created_at`) are modelled by the
single explicit `now_ms` parameter. -/
def start_trigger_burst (s : DataProcessor) (ev : Device.TriggerEvent) (now_ms : Nat) :
    String × DataProcessor :=
  let burst_id := "trigger_" ++ toString ev.timestamp ++ "_" ++ toString now_ms
  let nb : TriggerBurst :=
    { burst_id := burst_id
      trigger_timestamp := ev.timestamp
      trigger_channel := ev.channel
      pre_samples := ev.pre_samples
      post_samples := ev.post_samples
      data_packets := []
      is_complete := false
      total_samples := 0
      created_at := now_ms
      quality_summary :=
        { overall_quality := .Good
          channel_stats := []
          voltage_range := (INF, -INF)
          anomaly_count := 0 } }
  (burst_id, { s with current_trigger_burst := some nb })

/-- The `i % packet.channel_count` channel grouping of
`DataProcessor::calculate_quality_summary` (stored packets always have
`channel_count ≥ 1`; Lean's `% 0` never panics, unlike the source). -/
def burst_channel_values (packets : List ProcessedData) (c : Nat) : List ℚ :=
  (packets.map (fun p =>
    (p.data.enum.filterMap (fun iv =>
      if iv.1 % p.channel_count = c then some iv.2 else none)))).flatten

/-- The distinct channel keys of the grouping, in first-appearance order
(the source iterates a `HashMap`, whose order is unspecified; no claim
depends on the order of `channel_stats`). -/
def burst_channel_keys (packets : List ProcessedData) : List Nat :=
  ((packets.map (fun p =>
    (List.range p.data.length).map (fun i => i % p.channel_count))).flatten).dedup

/-- `DataProcessor::assess_burst_quality`. -/
def assess_burst_quality (burst : TriggerBurst) : DataQuality :=
  if burst.quality_summary.voltage_range.1 < -(1 / 10)
      ∨ burst.quality_summary.voltage_range.2 > 17 / 5 then
    .Warning "Voltage out of range"
  else if ¬ burst.is_complete then .Warning "Trigger data incomplete"
  else if burst.data_packets.isEmpty then .Error "No data packets in trigger burst"
  else .Good

/-- `DataProcessor::calculate_quality_summary` as a pure function on the
burst. -/
def calculate_quality_summary (burst : TriggerBurst) : TriggerBurst :=
  let all_samples := (burst.data_packets.map (fun p => p.data)).flatten
  let range :=
    if all_samples.isEmpty then burst.quality_summary.voltage_range
    else (fold_min all_samples, fold_max all_samples)
  let stats := (burst_channel_keys burst.data_packets).map (fun c =>
    let samples := burst_channel_values burst.data_packets c
    let count := samples.length
    { channel_id := c
      sample_count := count
      min_value := fold_min samples
      max_value := fold_max samples
      avg_value := if count > 0 then fold_sum samples / count else 0
      rms_sq_value := if count > 0 then fold_sum_sq samples / count else 0
      : ChannelStats })
  let b1 := { burst with quality_summary :=
    { burst.quality_summary with voltage_range := range, channel_stats := stats } }
  { b1 with quality_summary :=
    { b1.quality_summary with overall_quality := assess_burst_quality b1 } }

/-- `HashMap::insert` on the association-list model: replace the entry with
the same key, or append a fresh one. -/
def insert_kv (l : List (String × TriggerBurst)) (k : String) (v : TriggerBurst) :
    List (String × TriggerBurst) :=
  if l.any (fun p => p.1 = k) then l.map (fun p => if p.1 = k then (k, v) else p)
  else l ++ [(k, v)]

/-- `HashMap::remove` (keys are unique, so filtering equals removing the
entry). -/
def remove_key (l : List (String × TriggerBurst)) (k : String) :
    List (String × TriggerBurst) :=
  l.filter (fun p => p.1 ≠ k)

/-- `Vec::sort_by_key(|(ts, _)| ts)` — a stable sort on the `created_at`
key, as an insertion sort. -/
def insert_sorted (x : Nat × String) : List (Nat × String) → List (Nat × String)
  | [] => [x]
  | y :: ys => if x.1 ≤ y.1 then x :: y :: ys else y :: insert_sorted x ys

def sort_by_created : List (Nat × String) → List (Nat × String)
  | [] => []
  | x :: xs => insert_sorted x (sort_by_created xs)

/-- `DataProcessor::complete_trigger_burst`: close the current burst,
compute its quality summary, insert it into the completed cache and, if the
cache now exceeds `max_cached_bursts`, evict the burst with the smallest
`created_at` (the head of the stable sort; the source indexes
`timestamps[0]`, only reached when the cache is nonempty, so the `headD`
default is unreachable). -/
def complete_trigger_burst (s : DataProcessor) : Option TriggerBurst × DataProcessor :=
  match s.current_trigger_burst with
  | none => (none, s)
  | some b0 =>
    let b := calculate_quality_summary { b0 with is_complete := true }
    let cache1 := insert_kv s.completed_trigger_bursts b.burst_id b
    let cache2 :=
      if cache1.length > s.max_cached_bursts then
        let timestamps := sort_by_created (cache1.map (fun p => (p.2.created_at, p.1)))
        remove_key cache1 (timestamps.headD (0, "")).2
      else cache1
    (some b, { s with current_trigger_burst := none, completed_trigger_bursts := cache2 })

/-- `DataProcessor::get_trigger_burst`. -/
def get_trigger_burst (s : DataProcessor) (burst_id : String) : Option TriggerBurst :=
  (s.completed_trigger_bursts.find? (fun p => p.1 = burst_id)).map (fun p => p.2)

/-- `DataProcessor::remove_trigger_burst`: whether the id was present, and
the state with it removed. -/
def remove_trigger_burst (s : DataProcessor) (burst_id : String) : Bool × DataProcessor :=
  (s.completed_trigger_bursts.any (fun p => p.1 = burst_id),
   { s with completed_trigger_bursts := remove_key s.completed_trigger_bursts burst_id })

/-- `DataProcessor::reset_trigger_state`. -/
def reset_trigger_state (s : DataProcessor) : DataProcessor :=
  { s with current_trigger_timestamp := none, trigger_burst_sequence := 0,
           current_trigger_burst := none }

/-- One line of the CSV export: the four comma-separated columns.  The
source renders the row as text with `{:.6}` float formatting; the columns
themselves are modelled (the value exactly, over `ℚ`). -/
structure CsvRow where
  timestamp : Nat
  channel : Nat
  sample_index : Nat
  value : ℚ
  deriving Repr, DecidableEq

/-- The header line written by `DataProcessor::export_burst_as_csv`. -/
def csv_header : String := "timestamp_ms,channel_id,sample_index,value"

/-- The rows contributed by one packet in
`DataProcessor::export_burst_as_csv`: channel-major double loop with the
source's `data_idx < packet.data.len()` bounds guard. -/
def export_packet_rows (packet : ProcessedData) : List CsvRow :=
  let samples_per_channel := packet.data.length / max packet.channel_count 1
  ((List.range packet.channel_count).map (fun ch =>
    (List.range samples_per_channel).filterMap (fun sample_idx =>
      let data_idx := ch * samples_per_channel + sample_idx
      if data_idx < packet.data.length then
        some ⟨packet.timestamp, ch, sample_idx, packet.data.getD data_idx 0⟩
      else none))).flatten

/-- `DataProcessor::export_burst_as_csv`: the header line followed by the
rows of each packet in arrival order. -/
def export_burst_as_csv (burst : TriggerBurst) : String × List CsvRow :=
  (csv_header, (burst.data_packets.map export_packet_rows).flatten)

/-- A small concrete packet (two channel slots, one sample each) used as a
CSV-export witness input. -/
def csv_demo_packet : ProcessedData :=
  { timestamp := 3
    sequence := 1
    channel_count := 2
    sample_rate := 0
    data := [1, 2]
    metadata :=
      { packet_count := 1, processing_time_us := 0, data_quality := .Good,
        channel_info := [] }
    data_type := { source := .Continuous, trigger_info := none } }

/-- A one-packet complete burst around `csv_demo_packet`. -/
def csv_demo_burst : TriggerBurst :=
  { burst_id := "t"
    trigger_timestamp := 0
    trigger_channel := 0
    pre_samples := 0
    post_samples := 0
    data_packets := [csv_demo_packet]
    is_complete := true
    total_samples := 2
    created_at := 0
    quality_summary :=
      { overall_quality := .Good, channel_stats := [], voltage_range := (0, 0),
        anomaly_count := 0 } }

end Proc

namespace Session

/-- `DeviceStatus` from `device_communication.rs`. -/
structure DeviceStatus where
  connected : Bool
  device_id : Option Nat
  firmware_version : Option Nat
  mode : Option String
  stream_active : Bool
  deriving Repr, DecidableEq

/-- `ChannelConfig` from `device_communication.rs`. -/
structure ChannelConfig where
  channel_id : Nat
  sample_rate : Nat
  format : Nat
  deriving Repr, DecidableEq

/-- `DeviceCommand` from `device_communication.rs`. -/
inductive DeviceCommand where
  | Ping
  | GetDeviceInfo
  | SetModeContinuous
  | SetModeTrigger
  | StartStream
  | StopStream
  | ConfigureStream (channels : List ChannelConfig)
  | RequestBufferedData
  deriving Repr, DecidableEq

/-- `DeviceEvent` from `device_communication.rs`.  The `LogMessage` text is
carried as its raw bytes (the lossy UTF-8 decode is not modelled); `Error`
carries the mapped Nack string with the dynamic `type=…, code=…` suffix of
the unknown case dropped. -/
inductive DeviceEvent where
  | Connected (kind : String)
  | Disconnected
  | FrameReceived (f : Codec.RawFrame)
  | DataPacket (p : Device.DataPacket)
  | StatusUpdate (st : DeviceStatus)
  | TriggerEvent (e : Device.TriggerEvent)
  | BufferTransferComplete
  | LogMessage (level : Nat) (message : List Nat)
  | Error (msg : String)
  deriving Repr, DecidableEq

/-- The mutable `DeviceManager` fields that the session logic touches
(`connection : Option<Connection>` is modelled by whether a transport is
open; the transport itself and the channels are I/O). -/
structure DeviceManager where
  status : DeviceStatus
  seq : Nat
  trigger_active : Bool
  current_trigger : Option Device.TriggerEvent
  connection : Bool
  deriving Repr, DecidableEq

/-- The state part of `DeviceManager::new`. -/
def DeviceManager.new : DeviceManager :=
  { status :=
      { connected := false, device_id := none, firmware_version := none,
        mode := none, stream_active := false }
    seq := 0
    trigger_active := false
    current_trigger := none
    connection := false }

/-- `u32::to_le_bytes`. -/
def u32_le (n : Nat) : List Nat :=
  [n % 256, n / 256 % 256, n / 65536 % 256, n / 16777216 % 256]

/-- Little-endian reads of the payload byte list. -/
def read_u16 (p : List Nat) (i : Nat) : Nat :=
  p.getD i 0 + 256 * p.getD (i + 1) 0

def read_u32 (p : List Nat) (i : Nat) : Nat :=
  p.getD i 0 + 256 * p.getD (i + 1) 0 + 65536 * p.getD (i + 2) 0
    + 16777216 * p.getD (i + 3) 0

/-- `DeviceManager::send_command`: the sequence byte is advanced
(`wrapping_add(1)`) before the write attempt, regardless of its outcome;
the written bytes are `ProtocolParser::build_frame(command, seq, payload)`.
`write_ok` stands for the success of `conn.write` on the open transport. -/
def send_command (s : DeviceManager) (write_ok : Bool) :
    DeviceManager × Except String Unit :=
  let s1 := { s with seq := (s.seq + 1) % 256 }
  if s.connection then
    if write_ok then (s1, .ok ()) else (s1, .error "write failed")
  else (s1, .error "no connection")

/-- `DeviceManager::handle_command`.  Each branch mutates local state
first, then sends; `RequestBufferedData` outside trigger mode only logs a
warning and returns `Ok(())` without sending. -/
def handle_command (s : DeviceManager) (cmd : DeviceCommand) (write_ok : Bool) :
    DeviceManager × Except String Unit :=
  match cmd with
  | .Ping => send_command s write_ok
  | .GetDeviceInfo => send_command s write_ok
  | .SetModeContinuous =>
    let s1 := { s with trigger_active := false, current_trigger := none,
                       status := { s.status with mode := some "continuous" } }
    send_command s1 write_ok
  | .SetModeTrigger =>
    let s1 := { s with trigger_active := true, current_trigger := none,
                       status := { s.status with mode := some "trigger" } }
    send_command s1 write_ok
  | .StartStream =>
    send_command { s with status := { s.status with stream_active := true } } write_ok
  | .StopStream =>
    send_command { s with status := { s.status with stream_active := false } } write_ok
  | .ConfigureStream _ => send_command s write_ok
  | .RequestBufferedData =>
    if s.trigger_active then send_command s write_ok
    else (s, .ok ())

/-- The Nack error mapping at `device_communication.rs:567`. -/
def nack_message (error_type error_code : Nat) : String :=
  if error_type = 0x01 ∧ error_code = 0x01 then "Parameter error: invalid parameter"
  else if error_type = 0x01 ∧ error_code = 0x02 then "Parameter error: invalid channel configuration"
  else if error_type = 0x02 ∧ error_code = 0x01 then "Status error: invalid mode for operation"
  else if error_type = 0x02 ∧ error_code = 0x02 then "Status error: trigger not occurred"
  else if error_type = 0x05 ∧ error_code = 0x00 then "Command not supported"
  else "Unknown error"

/-- `DeviceManager::handle_frame`: the state change and the `DeviceEvent`s
pushed on `event_tx`, in order (`FrameReceived` is always appended last).
The source's `match` on the command byte is written as the equivalent
chain of equality tests; `current_trigger.as_ref().unwrap()` in the `0x40`
arm is guarded by `is_some`, so the `getD` default is unreachable. -/
def handle_frame (s : DeviceManager) (f : Codec.RawFrame) :
    DeviceManager × List DeviceEvent :=
  let p := f.payload
  let r : DeviceManager × List DeviceEvent :=
    if f.command_id = 0x81 then -- PONG
      let s1 :=
        if p.length ≥ 8 then
          { s with status := { s.status with
              device_id := some (read_u32 p 0 + 4294967296 * read_u32 p 4) } }
        else s
      (s1, [.StatusUpdate s1.status])
    else if f.command_id = 0x83 then -- DEVICE_INFO
      let s1 :=
        if p.length ≥ 3 then
          { s with status := { s.status with firmware_version := some (read_u16 p 1) } }
        else s
      (s1, [.StatusUpdate s1.status])
    else if f.command_id = 0x40 then -- DATA_PACKET
      if p.length ≥ 8 then
        let data_type : Device.DataType :=
          if s.trigger_active ∧ s.current_trigger.isSome then
            .Trigger ((s.current_trigger.getD ⟨0, 0, 0, 0⟩).timestamp) false
          else .Continuous
        (s, [.DataPacket
              { timestamp_ms := read_u32 p 0
                enabled_channels := read_u16 p 4
                sample_count := read_u16 p 6
                sensor_data := p.drop 8
                data_type := data_type }])
      else (s, [])
    else if f.command_id = 0x41 then -- EVENT_TRIGGERED
      if p.length ≥ 14 then
        let ev : Device.TriggerEvent :=
          { timestamp := read_u32 p 0
            channel := read_u16 p 4
            pre_samples := read_u32 p 6
            post_samples := read_u32 p 10 }
        ({ s with current_trigger := some ev }, [.TriggerEvent ev])
      else (s, [])
    else if f.command_id = 0x4F then -- BUFFER_TRANSFER_COMPLETE
      -- the source leaves `current_trigger` in place (the clearing line is
      -- commented out)
      (s, [.BufferTransferComplete])
    else if f.command_id = 0x90 then (s, []) -- ACK
    else if f.command_id = 0x91 then -- NACK
      if p.length ≥ 2 then (s, [.Error (nack_message (p.getD 0 0) (p.getD 1 0))])
      else (s, [])
    else if f.command_id = 0xE0 then -- LOG_MESSAGE
      if p.length ≥ 2 ∧ p.length ≥ 2 + p.getD 1 0 then
        (s, [.LogMessage (p.getD 0 0) ((p.drop 2).take (p.getD 1 0))])
      else (s, [])
    else (s, [])
  (r.1, r.2 ++ [.FrameReceived f])

/-- One session-task input: a control command from the channel (with the
outcome of its transport write), or one parsed inbound frame. -/
inductive Input where
  | cmd (c : DeviceCommand) (write_ok : Bool)
  | frame (f : Codec.RawFrame)
  deriving Repr, DecidableEq

/-- The state reached after a sequence of inputs (errors from
`handle_command` are logged and do not stop the loop). -/
def step (s : DeviceManager) (i : Input) : DeviceManager :=
  match i with
  | .cmd c w => (handle_command s c w).1
  | .frame f => (handle_frame s f).1

def run (inputs : List Input) : DeviceManager :=
  inputs.foldl step DeviceManager.new

/-- One step of the spec-level in-trigger-mode fold: only the two mode
commands change it. -/
def spec_in_step (b : Bool) : Input → Bool
  | .cmd .SetModeTrigger _ => true
  | .cmd .SetModeContinuous _ => false
  | _ => b

/-- Whether the session is in trigger mode after the inputs — spec-level
fold that mirrors only the mode commands. -/
def spec_in_trigger (inputs : List Input) : Bool :=
  inputs.foldl spec_in_step false

/-- One step of the spec-level fold for the last trigger event received
since trigger mode was last entered: mode commands reset it, a well-formed
`0x41` frame records its timestamp. -/
def spec_since_step (t : Option Nat) : Input → Option Nat
  | .cmd .SetModeTrigger _ => none
  | .cmd .SetModeContinuous _ => none
  | .frame f =>
    if f.command_id = 0x41 ∧ f.payload.length ≥ 14 then
      some (read_u32 f.payload 0)
    else t
  | _ => t

/-- The timestamp of the last well-formed `0x41` trigger-event frame
received since trigger mode was last entered, spec-level fold. -/
def spec_trigger_since_entry (inputs : List Input) : Option Nat :=
  inputs.foldl spec_since_step none

end Session

namespace WS

/-- `ClientSubscriptions` from `websocket.rs`. -/
structure ClientSubscriptions where
  data_stream : Bool
  trigger_events : Bool
  trigger_bursts : Bool
  continuous_only : Bool
  trigger_only : Bool
  deriving Repr, DecidableEq

/-- `ClientSubscriptions::default()`: all three topic flags on, both
exclusive filters off.  `WebSocketServer::handle_connection` registers
every new client with exactly this value. -/
def ClientSubscriptions.default : ClientSubscriptions :=
  { data_stream := true
    trigger_events := true
    trigger_bursts := true
    continuous_only := false
    trigger_only := false }

/-- The per-client filter of `WebSocketServer::broadcast_data`: skip when
`data_stream` is off; Continuous-source messages skip `trigger_only`
clients; Trigger-source messages skip `continuous_only` clients. -/
def should_send_data (subs : ClientSubscriptions) (source : Proc.DataSource) : Bool :=
  if !subs.data_stream then false
  else
    match source with
    | .Continuous => !subs.trigger_only
    | .Trigger => !subs.continuous_only

/-- The clients a data message is enqueued to (entries of the registry that
pass the filter; send failures only mark for later removal). -/
def broadcast_data_targets (clients : List (String × ClientSubscriptions))
    (source : Proc.DataSource) : List (String × ClientSubscriptions) :=
  clients.filter (fun c => should_send_data c.2 source)

/-- The clients a `trigger_event` message is enqueued to. -/
def broadcast_trigger_event_targets (clients : List (String × ClientSubscriptions)) :
    List (String × ClientSubscriptions) :=
  clients.filter (fun c => c.2.trigger_events)

/-- The clients a `trigger_burst_complete` message is enqueued to. -/
def broadcast_trigger_burst_targets (clients : List (String × ClientSubscriptions)) :
    List (String × ClientSubscriptions) :=
  clients.filter (fun c => c.2.trigger_bursts)

/-- A client-originated control frame, as far as subscription state is
concerned. -/
inductive ClientMsg where
  | subscribe (channels : List String)
  | ping
  | other
  deriving Repr, DecidableEq

/-- The subscribe handler of `WebSocketServer::handle_client_message`:
reset every flag to false, then apply the channel list in order. -/
def apply_subscribe (channels : List String) : ClientSubscriptions :=
  channels.foldl (fun subs ch =>
    if ch = "data" then { subs with data_stream := true }
    else if ch = "trigger_events" then { subs with trigger_events := true }
    else if ch = "trigger_bursts" then { subs with trigger_bursts := true }
    else if ch = "continuous_only" then { subs with data_stream := true, continuous_only := true }
    else if ch = "trigger_only" then { subs with data_stream := true, trigger_only := true }
    else if ch = "all" then { subs with data_stream := true, trigger_events := true, trigger_bursts := true }
    else subs)
    { data_stream := false, trigger_events := false, trigger_bursts := false,
      continuous_only := false, trigger_only := false }

/-- A client's subscription set after a sequence of its messages (only
`subscribe` frames touch it). -/
def client_subs_step (subs : ClientSubscriptions) (m : ClientMsg) : ClientSubscriptions :=
  match m with
  | .subscribe cs => apply_subscribe cs
  | _ => subs

def client_subs_after (msgs : List ClientMsg) : ClientSubscriptions :=
  msgs.foldl client_subs_step .default

end WS

namespace Codec

/-! ### CRC bounds and little-endian reconstruction -/

theorem crcRound_lt {x : Nat} (h : x < 2 ^ 16) : crcRound x < 2 ^ 16 := by
  have hdiv : x / 2 < 2 ^ 16 := Nat.lt_of_le_of_lt (Nat.div_le_self x 2) h
  unfold crcRound
  split
  · exact Nat.xor_lt_two_pow hdiv (by norm_num)
  · exact hdiv

theorem crcByte_lt {x b : Nat} (hx : x < 2 ^ 16) (hb : b < 2 ^ 16) : crcByte x b < 2 ^ 16 := by
  unfold crcByte
  exact crcRound_lt (crcRound_lt (crcRound_lt (crcRound_lt (crcRound_lt (crcRound_lt
    (crcRound_lt (crcRound_lt (Nat.xor_lt_two_pow hx hb))))))))

theorem foldl_crcByte_lt :
    ∀ (data : List Nat) (acc : Nat), acc < 2 ^ 16 → (∀ b ∈ data, b < 256) →
      data.foldl crcByte acc < 2 ^ 16 := by
  intro data
  induction data with
  | nil => intro acc hacc _; simpa using hacc
  | cons x xs ih =>
    intro acc hacc hmem
    simp only [List.foldl_cons]
    exact ih _ (crcByte_lt hacc (Nat.lt_trans (hmem x (by simp)) (by norm_num)))
      (fun b hb => hmem b (by simp [hb]))

theorem crc16_lt {data : List Nat} (h : ∀ b ∈ data, b < 256) : crc16 data < 2 ^ 16 :=
  foldl_crcByte_lt data 0xFFFF (by norm_num) h

theorem le16_reconstruct {x : Nat} (h : x < 2 ^ 16) :
    x % 256 + 256 * (x / 256 % 256) = x := by
  have hd : x / 256 < 256 := by rw [Nat.div_lt_iff_lt_mul (by norm_num)]; omega
  rw [Nat.mod_eq_of_lt hd, Nat.mod_add_div]

/-! ### Round trip (claim C1) -/

theorem build_frame_eq (c s : Nat) (p : List Nat) (hl : p.length < 65000) :
    build_frame c s p =
      0xAA :: 0x55 :: ((p.length + 4) % 256) :: ((p.length + 4) / 256 % 256) :: c :: s ::
        (p ++ [crc16 (c :: s :: p) % 256, crc16 (c :: s :: p) / 256 % 256, 0x55, 0xAA]) := by
  have h1 : 1 + 1 + p.length + 2 = p.length + 4 := by omega
  have h2 : (p.length + 4) % 2 ^ 16 = p.length + 4 := Nat.mod_eq_of_lt (by omega)
  simp only [build_frame, h1, h2]

theorem getD_append_tail (p l : List Nat) (k d : Nat) :
    (p ++ l).getD (p.length + k) d = l.getD k d := by
  rw [List.getD_append_right _ _ _ _ (Nat.le_add_right _ _)]
  congr 1
  omega

theorem getD_append_len (p l : List Nat) (d : Nat) :
    (p ++ l).getD p.length d = l.getD 0 d := by
  rw [List.getD_append_right _ _ _ _ (Nat.le_refl _)]
  congr 1
  omega

/-- Parsing one well-formed frame: head, correct little-endian length bytes,
matching CRC bytes, tail.  Stated over abstract length/CRC byte pairs
`lo, hi, klo, khi` to keep the arithmetic readable. -/
theorem try_parse_one_frame (c s lo hi klo khi : Nat) (p : List Nat)
    (hlenb : lo + 256 * hi = p.length + 4)
    (hcrcb : klo + 256 * khi = crc16 (c :: s :: p)) :
    try_parse_one (0xAA :: 0x55 :: lo :: hi :: c :: s :: (p ++ [klo, khi, 0x55, 0xAA]))
      = (some ⟨c, s, p⟩, []) := by
  have hfind :
      find_frame_start (0xAA :: 0x55 :: lo :: hi :: c :: s :: (p ++ [klo, khi, 0x55, 0xAA]))
        = some 0 := by
    simp [find_frame_start]
  have hL :
      (0xAA :: 0x55 :: lo :: hi :: c :: s :: (p ++ [klo, khi, 0x55, 0xAA])).length
        = p.length + 10 := by
    simp
  simp only [try_parse_one, hfind, List.drop_zero, hL]
  have c1f : ¬(p.length + 10 < 10) := by omega
  rw [if_neg c1f]
  simp only [List.getD_cons_zero, List.getD_cons_succ, hlenb, and_self,
    not_true, if_false]
  have e0 : 4 + (p.length + 4) + 2 = p.length + 10 := by omega
  simp only [e0]
  have c3f : ¬(p.length + 10 < p.length + 10) := by omega
  rw [if_neg c3f]
  have e1 : p.length + 10 - 2 = p.length + 8 := by omega
  have e2 : p.length + 10 - 1 = p.length + 9 := by omega
  simp only [e1, e2, List.getD_cons_succ, getD_append_tail,
    List.getD_cons_zero, and_self, not_true, if_false]
  have e3 : p.length + 4 - 4 = p.length := by omega
  have e4 : (6 : Nat) + p.length = p.length + 6 := by omega
  have e5 : p.length + 6 + 1 = p.length + 7 := by omega
  have e6 : p.length + 6 - 4 = p.length + 2 := by omega
  simp only [e3, e4]
  simp only [e5, e6, List.drop_succ_cons, List.drop_zero, List.take_succ_cons,
    List.take_left, List.getD_cons_succ, getD_append_tail, getD_append_len,
    List.getD_cons_zero, hcrcb, ne_eq, not_true, if_false]
  rw [List.drop_eq_nil_of_le (show (p ++ [klo, khi, 0x55, 0xAA]).length ≤ p.length + 4 by simp)]

theorem try_parse_one_build (c s : Nat) (p : List Nat)
    (hc : c < 256) (hs : s < 256) (hp : ∀ b ∈ p, b < 256) (hl : p.length < 65000) :
    try_parse_one (build_frame c s p) = (some ⟨c, s, p⟩, []) := by
  have hq : crc16 (c :: s :: p) < 2 ^ 16 := by
    refine crc16_lt ?_
    intro b hb
    rcases List.mem_cons.mp hb with rfl | hb2
    · exact hc
    rcases List.mem_cons.mp hb2 with rfl | hb3
    · exact hs
    · exact hp b hb3
  rw [build_frame_eq c s p hl]
  exact try_parse_one_frame c s _ _ _ _ p
    (le16_reconstruct (show p.length + 4 < 2 ^ 16 by omega))
    (le16_reconstruct hq)

theorem find_frame_start_le (buf : List Nat) (i : Nat)
    (h : find_frame_start buf = some i) : i + 2 ≤ buf.length := by
  induction buf generalizing i with
  | nil => simp [find_frame_start] at h
  | cons a l ih =>
    cases l with
    | nil => simp [find_frame_start] at h
    | cons b rest =>
      rw [find_frame_start] at h
      by_cases hab : a = 0xAA ∧ b = 0x55
      · rw [if_pos hab] at h
        simp only [Option.some.injEq] at h
        subst h
        simp
      · rw [if_neg hab] at h
        rcases Option.map_eq_some'.mp h with ⟨j, hj, rfl⟩
        have := ih j hj
        simp at this ⊢
        omega

/-- Exhaustive behaviour of one parse attempt: either a frame is emitted and
the buffer strictly shrinks, or no frame is emitted and the buffer is either
untouched (exactly the awaiting-more states) or strictly smaller (at least
one byte discarded). -/
theorem try_parse_one_cases (buf : List Nat) :
    ((try_parse_one buf).1 ≠ none ∧ (try_parse_one buf).2.length < buf.length)
    ∨ ((try_parse_one buf).1 = none ∧ (try_parse_one buf).2 = buf ∧ awaiting_more buf = true)
    ∨ ((try_parse_one buf).1 = none ∧ (try_parse_one buf).2.length < buf.length) := by
  rcases hfind : find_frame_start buf with _ | start
  · right; left
    simp [try_parse_one, awaiting_more, hfind]
  · have hse := find_frame_start_le buf start hfind
    simp only [try_parse_one, awaiting_more, hfind]
    split_ifs with h1 h2 h3 h4 h5
    · -- buffer (after garbage drop) shorter than the minimal frame
      by_cases hs0 : start = 0
      · subst hs0
        right; left
        refine ⟨by simp, by simp, by simp⟩
      · right; right
        refine ⟨by simp, ?_⟩
        simp only [List.length_drop]
        omega
    · -- advertised total longer than the buffer: wait for more bytes
      by_cases hs0 : start = 0
      · subst hs0
        right; left
        refine ⟨by simp, by simp, ?_⟩
        simpa using h3
      · right; right
        refine ⟨by simp, ?_⟩
        simp only [List.length_drop]
        omega
    · -- CRC mismatch: advance one byte
      right; right
      refine ⟨by simp, ?_⟩
      simp only [List.length_drop]
      omega
    · -- fully validated frame: consume it
      left
      refine ⟨by simp, ?_⟩
      simp only [List.length_drop]
      omega
    · -- tail mismatch: advance one byte
      right; right
      refine ⟨by simp, ?_⟩
      simp only [List.length_drop]
      omega
    · -- head re-check failed: advance one byte
      right; right
      refine ⟨by simp, ?_⟩
      simp only [List.length_drop]
      omega

theorem parse_frames_fuel_progress (fuel : Nat) (buf : List Nat) :
    (parse_frames_fuel fuel buf).1 ≠ []
    ∨ (parse_frames_fuel fuel buf).2 = buf
    ∨ (parse_frames_fuel fuel buf).2.length < buf.length := by
  cases fuel with
  | zero => right; left; rfl
  | succ fuel =>
    rw [parse_frames_fuel]
    by_cases hlen : buf.length < 10
    · rw [if_pos hlen]
      right; left; rfl
    · rw [if_neg hlen]
      rcases hone : try_parse_one buf with ⟨r, buf2⟩
      cases r with
      | some f => simp
      | none =>
        rcases try_parse_one_cases buf with ⟨hne, _⟩ | ⟨_, heq, _⟩ | ⟨_, hlt⟩
        · rw [hone] at hne; simp at hne
        · rw [hone] at heq; right; left; simpa using heq
        · rw [hone] at hlt; right; right; simpa using hlt

theorem parse_frames_fuel_nil (fuel : Nat) : parse_frames_fuel fuel [] = ([], []) := by
  cases fuel <;> simp [parse_frames_fuel]

theorem parse_frames_fuel_one (fuel : Nat) (buf : List Nat) (f : RawFrame)
    (h : try_parse_one buf = (some f, [])) (hlen : ¬(buf.length < 10)) :
    parse_frames_fuel (fuel + 1) buf = ([f], []) := by
  simp only [parse_frames_fuel, if_neg hlen, h, parse_frames_fuel_nil]

theorem build_frame_length (c s : Nat) (p : List Nat) (hl : p.length < 65000) :
    (build_frame c s p).length = p.length + 10 := by
  rw [build_frame_eq c s p hl]
  simp

end Codec

/-- C1.  Codec round-trip: for every command byte `cmd`, sequence byte `seq`
and payload of bytes with `payload.len() < 65000`, feeding the output of
`ProtocolParser::build_frame(cmd, seq, payload)` into a fresh decoder
(`feed_data` on an empty buffer) yields exactly one `RawFrame` whose
`command_id`, `sequence` and `payload` equal the inputs, and an empty
buffer. -/
theorem c1_codec_roundtrip (c s : Nat) (p : List Nat)
    (hc : c < 256) (hs : s < 256) (hp : ∀ b ∈ p, b < 256) (hl : p.length < 65000) :
    Codec.feed_data [] (Codec.build_frame c s p) = ([⟨c, s, p⟩], []) := by
  have hlen := Codec.build_frame_length c s p hl
  obtain ⟨k, hk⟩ : ∃ k, (Codec.build_frame c s p).length = k + 1 :=
    ⟨p.length + 9, by rw [hlen]⟩
  unfold Codec.feed_data
  rw [List.nil_append, hk]
  exact Codec.parse_frames_fuel_one k _ _
    (Codec.try_parse_one_build c s p hc hs hp hl) (by omega)

/-- Witness for C1 at `cmd = 0x01`, `seq = 0x02`, `payload = [0xAB, 0xCD]`
(the spec's framing happy-path scenario). -/
theorem c1_codec_roundtrip_witness :
    Codec.feed_data [] (Codec.build_frame 0x01 0x02 [0xAB, 0xCD])
      = ([⟨0x01, 0x02, [0xAB, 0xCD]⟩], []) :=
  c1_codec_roundtrip 0x01 0x02 [0xAB, 0xCD] (by decide) (by decide) (by decide) (by decide)

/-- C2.  Decoder progress: every invocation of `feed_data` either emits at
least one frame, leaves the buffer (old contents plus chunk) unchanged
awaiting more bytes, or strictly shrinks it; and every parse attempt that
returns no frame either discarded at least one byte or left the buffer
untouched precisely because the decoder is in an awaiting-more-input state
(no complete candidate frame), so a failed tail/CRC/head check always
discards at least one byte and the decoder never retries the same buffer
prefix unchanged. -/
theorem c2_decoder_progress (st chunk buf : List Nat) :
    ((Codec.feed_data st chunk).1 ≠ []
      ∨ (Codec.feed_data st chunk).2 = st ++ chunk
      ∨ (Codec.feed_data st chunk).2.length < (st ++ chunk).length)
    ∧ ((Codec.try_parse_one buf).1 = none →
        ((Codec.try_parse_one buf).2 = buf ∧ Codec.awaiting_more buf = true)
        ∨ (Codec.try_parse_one buf).2.length < buf.length) := by
  constructor
  · exact Codec.parse_frames_fuel_progress (st ++ chunk).length (st ++ chunk)
  · intro hnone
    rcases Codec.try_parse_one_cases buf with ⟨hne, _⟩ | ⟨_, h1, h2⟩ | ⟨_, h⟩
    · exact absurd hnone hne
    · exact Or.inl ⟨h1, h2⟩
    · exact Or.inr h

/-- Witness for C2: a frame whose CRC byte is corrupted (`0x25` instead of
`0xE1`) makes the parse attempt fail and discard one byte, and a feed of
that frame emits no frame while strictly shrinking the buffer. -/
theorem c2_decoder_progress_witness :
    ((Codec.feed_data [] [0xAA, 0x55, 4, 0, 1, 2, 0x81, 0x25, 0x55, 0xAA]).1 ≠ []
      ∨ (Codec.feed_data [] [0xAA, 0x55, 4, 0, 1, 2, 0x81, 0x25, 0x55, 0xAA]).2
          = [] ++ [0xAA, 0x55, 4, 0, 1, 2, 0x81, 0x25, 0x55, 0xAA]
      ∨ (Codec.feed_data [] [0xAA, 0x55, 4, 0, 1, 2, 0x81, 0x25, 0x55, 0xAA]).2.length
          < (([] : List Nat) ++ [0xAA, 0x55, 4, 0, 1, 2, 0x81, 0x25, 0x55, 0xAA]).length)
    ∧ (((Codec.try_parse_one [0xAA, 0x55, 4, 0, 1, 2, 0x81, 0x25, 0x55, 0xAA]).2
          = [0xAA, 0x55, 4, 0, 1, 2, 0x81, 0x25, 0x55, 0xAA]
        ∧ Codec.awaiting_more [0xAA, 0x55, 4, 0, 1, 2, 0x81, 0x25, 0x55, 0xAA] = true)
       ∨ (Codec.try_parse_one [0xAA, 0x55, 4, 0, 1, 2, 0x81, 0x25, 0x55, 0xAA]).2.length
          < ([0xAA, 0x55, 4, 0, 1, 2, 0x81, 0x25, 0x55, 0xAA] : List Nat).length) :=
  ⟨(c2_decoder_progress [] [0xAA, 0x55, 4, 0, 1, 2, 0x81, 0x25, 0x55, 0xAA]
      [0xAA, 0x55, 4, 0, 1, 2, 0x81, 0x25, 0x55, 0xAA]).1,
   (c2_decoder_progress [] [0xAA, 0x55, 4, 0, 1, 2, 0x81, 0x25, 0x55, 0xAA]
      [0xAA, 0x55, 4, 0, 1, 2, 0x81, 0x25, 0x55, 0xAA]).2 (by decide)⟩

/-- C3 (code evaluation at the failing input).  The spec mandates that each
output sample equal the signed 16-bit little-endian value converted to
float with no re-scaling; the code instead maps it through
`((raw + 32768) / 65535) * 3.3`.  At the one-channel one-sample packet with
bytes `[0x00, 0x00]` (raw value 0) the produced sample is
`32768 / 65535 * 3.3 ≈ 1.65`, not `0`. -/
theorem c3_sample_passthrough_code_eval :
    ((Proc.process_packet Proc.DataProcessor.new
        { timestamp_ms := 0, enabled_channels := 1, sample_count := 1,
          sensor_data := [0, 0], data_type := .Continuous } 0).1.map
      (fun r => r.data)) = .ok [Proc.sample_voltage (Proc.i16_from_le 0 0)]
    ∧ Proc.sample_voltage (Proc.i16_from_le 0 0) = 32768 / 65535 * (33 / 10)
    ∧ Proc.i16_from_le 0 0 = 0
    ∧ Proc.sample_voltage (Proc.i16_from_le 0 0) ≠ ((Proc.i16_from_le 0 0 : Int) : ℚ) := by
  refine ⟨rfl, ?_, rfl, ?_⟩
  · norm_num [Proc.sample_voltage, Proc.i16_from_le]
  · norm_num [Proc.sample_voltage, Proc.i16_from_le]

/-- C4 (counterexample).  The sequence counter is incremented before
validation, so a rejected packet consumes a sequence number: after one
rejected packet (no enabled channels) the first successfully returned
`ProcessedData` carries `sequence = 2`, not `1`. -/
theorem c4_sequence_counterexample :
    ((Proc.process_packet Proc.DataProcessor.new
        { timestamp_ms := 0, enabled_channels := 0, sample_count := 1,
          sensor_data := [], data_type := .Continuous } 0).1.isOk = false)
    ∧ ((Proc.process_packet
          (Proc.process_packet Proc.DataProcessor.new
            { timestamp_ms := 0, enabled_channels := 0, sample_count := 1,
              sensor_data := [], data_type := .Continuous } 0).2
          { timestamp_ms := 0, enabled_channels := 1, sample_count := 1,
            sensor_data := [0, 0], data_type := .Continuous } 0).1.map
        (fun r => r.sequence)) = .ok 2 := by
  exact ⟨rfl, rfl⟩

/-- C4 (amended).  Every `process_packet` call — also one that rejects the
packet — increments `packet_sequence` by exactly one, and a successfully
returned `ProcessedData` carries that incremented value as its `sequence`;
successful sequences are therefore strictly increasing, but each rejected
packet leaves a gap. -/
theorem c4_sequence_assignment (s : Proc.DataProcessor) (p : Device.DataPacket) (t : Nat) :
    (Proc.process_packet s p t).2.packet_sequence = s.packet_sequence + 1
    ∧ (Proc.process_packet s p t).1.map (fun r => r.sequence)
        = (Proc.process_packet s p t).1.map (fun _ => s.packet_sequence + 1) := by
  by_cases h1 : Proc.count_ones p.enabled_channels = 0
  · simp [Proc.process_packet, h1, Except.map]
  · by_cases h2 : p.sensor_data.length ≠ Proc.count_ones p.enabled_channels * p.sample_count * 2
    · simp [Proc.process_packet, h1, h2, Except.map]
    · cases hdt : p.data_type with
      | Continuous => simp [Proc.process_packet, h1, h2, hdt, Except.map]
      | Trigger ts complete =>
        by_cases hcur : s.current_trigger_timestamp ≠ some ts
        · cases hb : s.current_trigger_burst <;>
            simp [Proc.process_packet, h1, h2, hdt, hcur, hb, Except.map]
        · cases hb : s.current_trigger_burst <;>
            simp [Proc.process_packet, h1, h2, hdt, hcur, hb, Except.map]

/-- C6 (counterexample).  With no transport open, `SetModeTrigger` fails to
send, yet the local mode keeps the new value: `trigger_active` stays `true`
and `status.mode` stays `"trigger"` although both were `false`/`none`
before the command — no rollback happens. -/
theorem c6_mode_rollback_counterexample :
    Session.DeviceManager.new.trigger_active = false
    ∧ Session.DeviceManager.new.status.mode = none
    ∧ Session.DeviceManager.new.connection = false
    ∧ (Session.handle_command Session.DeviceManager.new .SetModeTrigger true).2
        = .error "no connection"
    ∧ (Session.handle_command Session.DeviceManager.new .SetModeTrigger true).1.trigger_active
        = true
    ∧ (Session.handle_command Session.DeviceManager.new .SetModeTrigger true).1.status.mode
        = some "trigger" := by
  refine ⟨rfl, rfl, rfl, rfl, rfl, rfl⟩

/-- C6 (amended).  Mode commands update the local mode state first and then
send; whether or not the send succeeds, the local mode keeps the newly set
value (`trigger_active`, `status.mode`, and the cleared `current_trigger`)
— there is no rollback on send failure. -/
theorem c6_mode_no_rollback (s : Session.DeviceManager) (w : Bool) :
    ((Session.handle_command s .SetModeTrigger w).1.trigger_active = true
     ∧ (Session.handle_command s .SetModeTrigger w).1.status.mode = some "trigger"
     ∧ (Session.handle_command s .SetModeTrigger w).1.current_trigger = none)
    ∧ ((Session.handle_command s .SetModeContinuous w).1.trigger_active = false
       ∧ (Session.handle_command s .SetModeContinuous w).1.status.mode = some "continuous"
       ∧ (Session.handle_command s .SetModeContinuous w).1.current_trigger = none) := by
  simp only [Session.handle_command, Session.send_command]
  split_ifs <;> simp

/-- Helper for C9: messages that contain no subscribe frame leave the
subscription set untouched. -/
theorem client_subs_foldl_no_subscribe (msgs : List WS.ClientMsg)
    (subs : WS.ClientSubscriptions)
    (h : ∀ cs, WS.ClientMsg.subscribe cs ∉ msgs) :
    msgs.foldl WS.client_subs_step subs = subs := by
  induction msgs generalizing subs with
  | nil => rfl
  | cons m ms ih =>
    cases m with
    | subscribe cs => exact absurd (List.mem_cons_self _ _) (h cs)
    | ping =>
      simp only [List.foldl_cons]
      exact ih subs (fun cs hm => h cs (List.mem_cons_of_mem _ hm))
    | other =>
      simp only [List.foldl_cons]
      exact ih subs (fun cs hm => h cs (List.mem_cons_of_mem _ hm))

/-- C7.  Filter correctness of `WebSocketServer::broadcast_data`: a client
whose subscription set has `continuous_only` is never among the clients a
Trigger-source data message is enqueued to; and, per outgoing data message,
a client is enqueued to exactly when `data_stream` is set, it is not a
`trigger_only` client receiving a Continuous-source message, and not a
`continuous_only` client receiving a Trigger-source message. -/
theorem c7_filter_correctness :
    (∀ (clients : List (String × WS.ClientSubscriptions)) (id : String)
       (subs : WS.ClientSubscriptions),
      subs.continuous_only = true →
      (id, subs) ∉ WS.broadcast_data_targets clients .Trigger)
    ∧ (∀ (subs : WS.ClientSubscriptions) (source : Proc.DataSource),
        WS.should_send_data subs source = true ↔
          (subs.data_stream = true
           ∧ ¬(source = .Continuous ∧ subs.trigger_only = true)
           ∧ ¬(source = .Trigger ∧ subs.continuous_only = true))) := by
  constructor
  · intro clients id subs hco hmem
    rw [WS.broadcast_data_targets, List.mem_filter] at hmem
    have h2 := hmem.2
    cases hds : subs.data_stream <;>
      simp [WS.should_send_data, hco, hds] at h2
  · intro subs source
    cases source <;>
      cases hds : subs.data_stream <;>
        cases hto : subs.trigger_only <;>
          cases hco : subs.continuous_only <;>
            simp [WS.should_send_data, hds, hto, hco]

/-- Witness for C7 at a one-client registry whose client subscribed
`continuous_only`. -/
theorem c7_filter_correctness_witness :
    (("a", ({ data_stream := true, trigger_events := true, trigger_bursts := true,
              continuous_only := true, trigger_only := false } : WS.ClientSubscriptions))
        ∉ WS.broadcast_data_targets
            [("a", ({ data_stream := true, trigger_events := true, trigger_bursts := true,
                      continuous_only := true, trigger_only := false } : WS.ClientSubscriptions))]
            .Trigger)
    ∧ (WS.should_send_data
        ({ data_stream := true, trigger_events := true, trigger_bursts := true,
           continuous_only := true, trigger_only := false } : WS.ClientSubscriptions) .Trigger
          = true ↔
        (true = true
         ∧ ¬(Proc.DataSource.Trigger = .Continuous ∧ false = true)
         ∧ ¬(Proc.DataSource.Trigger = .Trigger ∧ true = true))) :=
  ⟨c7_filter_correctness.1 _ "a" _ rfl, c7_filter_correctness.2 _ .Trigger⟩

/-- C9.  Implicit default subscriptions: `handle_connection` registers each
new client with `ClientSubscriptions::default()`, which has `data_stream`,
`trigger_events` and `trigger_bursts` on and both exclusive filters off; a
client that never sends a subscribe frame keeps exactly that set, and with
it passes the fan-out filter of every data (both sources), trigger-event,
and burst-complete message. -/
theorem c9_default_subscriptions :
    WS.ClientSubscriptions.default.data_stream = true
    ∧ WS.ClientSubscriptions.default.trigger_events = true
    ∧ WS.ClientSubscriptions.default.trigger_bursts = true
    ∧ WS.ClientSubscriptions.default.continuous_only = false
    ∧ WS.ClientSubscriptions.default.trigger_only = false
    ∧ (∀ msgs : List WS.ClientMsg, (∀ cs, WS.ClientMsg.subscribe cs ∉ msgs) →
        WS.client_subs_after msgs = .default)
    ∧ (∀ source, WS.should_send_data .default source = true)
    ∧ (∀ (clients : List (String × WS.ClientSubscriptions)) (id : String),
        (id, WS.ClientSubscriptions.default) ∈ clients →
        ((id, WS.ClientSubscriptions.default) ∈ WS.broadcast_data_targets clients .Continuous
         ∧ (id, WS.ClientSubscriptions.default) ∈ WS.broadcast_data_targets clients .Trigger
         ∧ (id, WS.ClientSubscriptions.default) ∈ WS.broadcast_trigger_event_targets clients
         ∧ (id, WS.ClientSubscriptions.default) ∈ WS.broadcast_trigger_burst_targets clients)) := by
  refine ⟨rfl, rfl, rfl, rfl, rfl, ?_, ?_, ?_⟩
  · intro msgs h
    exact client_subs_foldl_no_subscribe msgs _ h
  · intro source
    cases source <;> rfl
  · intro clients id hmem
    refine ⟨?_, ?_, ?_, ?_⟩
    · rw [WS.broadcast_data_targets, List.mem_filter]
      exact ⟨hmem, rfl⟩
    · rw [WS.broadcast_data_targets, List.mem_filter]
      exact ⟨hmem, rfl⟩
    · rw [WS.broadcast_trigger_event_targets, List.mem_filter]
      exact ⟨hmem, rfl⟩
    · rw [WS.broadcast_trigger_burst_targets, List.mem_filter]
      exact ⟨hmem, rfl⟩

/-- Witness for C9: a client that only ever pinged still has the default
set and receives everything. -/
theorem c9_default_subscriptions_witness :
    WS.client_subs_after [WS.ClientMsg.ping, WS.ClientMsg.other] = .default
    ∧ (("a", WS.ClientSubscriptions.default)
        ∈ WS.broadcast_data_targets [("a", WS.ClientSubscriptions.default)] .Trigger) :=
  ⟨c9_default_subscriptions.2.2.2.2.2.1 [WS.ClientMsg.ping, WS.ClientMsg.other]
      (by intro cs h; simp at h),
   (c9_default_subscriptions.2.2.2.2.2.2.2 [("a", WS.ClientSubscriptions.default)] "a"
      (by simp)).2.1⟩

/-- Helper for C5: membership is invariant under the insertion step of the
stable sort. -/
theorem mem_insert_sorted {x z : Nat × String} {l : List (Nat × String)} :
    z ∈ Proc.insert_sorted x l ↔ z = x ∨ z ∈ l := by
  induction l with
  | nil => simp [Proc.insert_sorted]
  | cons y ys ih =>
    rw [Proc.insert_sorted]
    by_cases h : x.1 ≤ y.1
    · rw [if_pos h]
      simp only [List.mem_cons]
    · rw [if_neg h]
      simp only [List.mem_cons, ih]
      tauto

/-- Helper for C5: membership is invariant under the stable sort. -/
theorem mem_sort_by_created {z : Nat × String} {l : List (Nat × String)} :
    z ∈ Proc.sort_by_created l ↔ z ∈ l := by
  induction l with
  | nil => simp [Proc.sort_by_created]
  | cons x xs ih =>
    rw [Proc.sort_by_created, mem_insert_sorted]
    simp only [List.mem_cons, ih]

theorem insert_sorted_ne_nil (x : Nat × String) (l : List (Nat × String)) :
    Proc.insert_sorted x l ≠ [] := by
  cases l with
  | nil => simp [Proc.insert_sorted]
  | cons y ys =>
    rw [Proc.insert_sorted]
    split <;> simp

theorem sort_by_created_ne_nil {l : List (Nat × String)} (h : l ≠ []) :
    Proc.sort_by_created l ≠ [] := by
  cases l with
  | nil => exact absurd rfl h
  | cons x xs =>
    rw [Proc.sort_by_created]
    exact insert_sorted_ne_nil x _

/-- Helper for C5: the head of the stable sort is a member with the least
`created_at` key. -/
theorem sort_by_created_headD_min (l : List (Nat × String)) (h : l ≠ []) (d : Nat × String) :
    (Proc.sort_by_created l).headD d ∈ l
    ∧ ∀ y ∈ l, ((Proc.sort_by_created l).headD d).1 ≤ y.1 := by
  induction l with
  | nil => exact absurd rfl h
  | cons x xs ih =>
    by_cases hxs : xs = []
    · subst hxs
      refine ⟨by simp [Proc.sort_by_created, Proc.insert_sorted], ?_⟩
      intro y hy
      simp only [Proc.sort_by_created, Proc.insert_sorted, List.headD_cons]
      rcases List.mem_singleton.mp hy with rfl
      exact Nat.le_refl _
    · obtain ⟨hmem, hmin⟩ := ih hxs
      rcases hsx : Proc.sort_by_created xs with _ | ⟨hd, tl⟩
      · exact absurd hsx (sort_by_created_ne_nil hxs)
      · rw [hsx] at hmem
        simp only [List.headD_cons] at hmem
        have hmin2 : ∀ y ∈ xs, hd.1 ≤ y.1 := by
          intro y hy
          have := hmin y hy
          rw [hsx] at this
          simpa using this
        rw [Proc.sort_by_created, hsx, Proc.insert_sorted]
        by_cases hle : x.1 ≤ hd.1
        · rw [if_pos hle]
          simp only [List.headD_cons]
          refine ⟨List.mem_cons_self _ _, ?_⟩
          intro y hy
          rcases List.mem_cons.mp hy with rfl | hy2
          · exact Nat.le_refl _
          · exact Nat.le_trans hle (hmin2 y hy2)
        · rw [if_neg hle]
          simp only [List.headD_cons]
          refine ⟨List.mem_cons_of_mem _ hmem, ?_⟩
          intro y hy
          rcases List.mem_cons.mp hy with rfl | hy2
          · exact Nat.le_of_lt (Nat.lt_of_not_le hle)
          · exact hmin2 y hy2

/-- Helper for C5: `insert` grows the cache by one exactly when the key is
fresh. -/
theorem insert_kv_length (l : List (String × Proc.TriggerBurst)) (k : String)
    (v : Proc.TriggerBurst) :
    (Proc.insert_kv l k v).length
      = if l.any (fun p => p.1 = k) then l.length else l.length + 1 := by
  unfold Proc.insert_kv
  split <;> simp

/-- Helper for C5: removing a present key strictly shrinks the cache. -/
theorem remove_key_length_lt (l : List (String × Proc.TriggerBurst)) (k : String)
    (h : ∃ p ∈ l, p.1 = k) : (Proc.remove_key l k).length < l.length := by
  unfold Proc.remove_key
  refine List.length_filter_lt_length_iff_exists.mpr ?_
  obtain ⟨p, hp, hk⟩ := h
  exact ⟨p, hp, by simp [hk]⟩

theorem remove_key_length_le (l : List (String × Proc.TriggerBurst)) (k : String) :
    (Proc.remove_key l k).length ≤ l.length :=
  List.length_filter_le _ _

/-- Helper for C5: the cache bound is preserved by `complete_trigger_burst`. -/
theorem complete_burst_cache_bound (s : Proc.DataProcessor)
    (h : s.completed_trigger_bursts.length ≤ s.max_cached_bursts) :
    (Proc.complete_trigger_burst s).2.completed_trigger_bursts.length
      ≤ s.max_cached_bursts := by
  unfold Proc.complete_trigger_burst
  cases hc : s.current_trigger_burst with
  | none => simpa using h
  | some b0 =>
    dsimp only
    set b := Proc.calculate_quality_summary { b0 with is_complete := true } with hb
    set cache1 := Proc.insert_kv s.completed_trigger_bursts b.burst_id b with hc1
    have hlen1 : cache1.length ≤ s.max_cached_bursts + 1 := by
      rw [hc1, insert_kv_length]
      split <;> omega
    by_cases hgt : cache1.length > s.max_cached_bursts
    · rw [if_pos hgt]
      have hne : cache1 ≠ [] := by
        intro hnil
        rw [hnil] at hgt
        simp at hgt
      have hmapne : cache1.map (fun p => (p.2.created_at, p.1)) ≠ [] := by
        simpa using hne
      obtain ⟨hmem, _⟩ :=
        sort_by_created_headD_min (cache1.map (fun p => (p.2.created_at, p.1))) hmapne (0, "")
      obtain ⟨e, he, heq⟩ := List.mem_map.mp hmem
      have hshrink :
          (Proc.remove_key cache1
            ((Proc.sort_by_created
              (cache1.map (fun p => (p.2.created_at, p.1)))).headD (0, "")).2).length
          < cache1.length := by
        refine remove_key_length_lt _ _ ⟨e, he, ?_⟩
        rw [← heq]
      omega
    · rw [if_neg hgt]
      omega

/-- Helper for C5: `process_packet` never touches the completed-burst
cache. -/
theorem process_packet_cache_untouched (s : Proc.DataProcessor) (p : Device.DataPacket)
    (t : Nat) :
    (Proc.process_packet s p t).2.completed_trigger_bursts = s.completed_trigger_bursts := by
  by_cases h1 : Proc.count_ones p.enabled_channels = 0
  · simp [Proc.process_packet, h1]
  · by_cases h2 : p.sensor_data.length ≠ Proc.count_ones p.enabled_channels * p.sample_count * 2
    · simp [Proc.process_packet, h1, h2]
    · cases hdt : p.data_type with
      | Continuous => simp [Proc.process_packet, h1, h2, hdt]
      | Trigger ts complete =>
        by_cases hcur : s.current_trigger_timestamp ≠ some ts
        · cases hb : s.current_trigger_burst <;>
            simp [Proc.process_packet, h1, h2, hdt, hcur, hb]
        · cases hb : s.current_trigger_burst <;>
            simp [Proc.process_packet, h1, h2, hdt, hcur, hb]

/-- Helper for C5: when completing a burst overflows the cache, the entry
removed is a member of the post-insert cache with the least `created_at`. -/
theorem complete_burst_evicts_min (s : Proc.DataProcessor) (b0 : Proc.TriggerBurst)
    (hc : s.current_trigger_burst = some b0)
    (hgt : (Proc.insert_kv s.completed_trigger_bursts
        (Proc.calculate_quality_summary { b0 with is_complete := true }).burst_id
        (Proc.calculate_quality_summary { b0 with is_complete := true })).length
      > s.max_cached_bursts) :
    ∃ evicted ∈ Proc.insert_kv s.completed_trigger_bursts
        (Proc.calculate_quality_summary { b0 with is_complete := true }).burst_id
        (Proc.calculate_quality_summary { b0 with is_complete := true }),
      (Proc.complete_trigger_burst s).2.completed_trigger_bursts
          = Proc.remove_key
              (Proc.insert_kv s.completed_trigger_bursts
                (Proc.calculate_quality_summary { b0 with is_complete := true }).burst_id
                (Proc.calculate_quality_summary { b0 with is_complete := true }))
              evicted.1
        ∧ ∀ e ∈ Proc.insert_kv s.completed_trigger_bursts
              (Proc.calculate_quality_summary { b0 with is_complete := true }).burst_id
              (Proc.calculate_quality_summary { b0 with is_complete := true }),
            evicted.2.created_at ≤ e.2.created_at := by
  unfold Proc.complete_trigger_burst
  simp only [hc]
  rw [if_pos hgt]
  have hne : Proc.insert_kv s.completed_trigger_bursts
      (Proc.calculate_quality_summary { b0 with is_complete := true }).burst_id
      (Proc.calculate_quality_summary { b0 with is_complete := true }) ≠ [] := by
    intro hnil
    rw [hnil] at hgt
    simp at hgt
  have hmapne :
      (Proc.insert_kv s.completed_trigger_bursts
        (Proc.calculate_quality_summary { b0 with is_complete := true }).burst_id
        (Proc.calculate_quality_summary { b0 with is_complete := true })).map
          (fun p => (p.2.created_at, p.1)) ≠ [] := by
    simpa using hne
  obtain ⟨hmem, hmin⟩ := sort_by_created_headD_min _ hmapne (0, "")
  obtain ⟨e, he, heq⟩ := List.mem_map.mp hmem
  refine ⟨e, he, ?_, ?_⟩
  · rw [← heq]
  · intro e2 he2
    have h2 := hmin (e2.2.created_at, e2.1) (List.mem_map_of_mem _ he2)
    rw [← heq] at h2
    exact h2

/-- C5.  Burst cache bound and eviction: the completed-burst cache never
exceeds `max_cached_bursts` (default 10) across any operation —
`complete_trigger_burst` preserves the bound, `process_packet` and
`start_trigger_burst` leave the cache untouched, deletion only shrinks it —
and when completing would exceed the bound, the evicted entry is the head
of the stable sort by `created_at`, which is a cache member of least
`created_at`; completing `b1, b2, b3` (created at times 1, 2, 3) with
`max_cached_bursts = 2` leaves exactly the caches of `b2` and `b3`. -/
theorem c5_burst_cache_bound_and_eviction :
    (∀ s : Proc.DataProcessor,
      s.completed_trigger_bursts.length ≤ s.max_cached_bursts →
      (Proc.complete_trigger_burst s).2.completed_trigger_bursts.length
        ≤ s.max_cached_bursts)
    ∧ (∀ (s : Proc.DataProcessor) (p : Device.DataPacket) (t : Nat),
        (Proc.process_packet s p t).2.completed_trigger_bursts
          = s.completed_trigger_bursts)
    ∧ (∀ (s : Proc.DataProcessor) (ev : Device.TriggerEvent) (now_ms : Nat),
        (Proc.start_trigger_burst s ev now_ms).2.completed_trigger_bursts
          = s.completed_trigger_bursts)
    ∧ (∀ (s : Proc.DataProcessor) (burst_id : String),
        (Proc.remove_trigger_burst s burst_id).2.completed_trigger_bursts.length
          ≤ s.completed_trigger_bursts.length)
    ∧ (∀ l : List (Nat × String), l ≠ [] →
        (Proc.sort_by_created l).headD (0, "") ∈ l
        ∧ ∀ y ∈ l, ((Proc.sort_by_created l).headD (0, "")).1 ≤ y.1)
    ∧ ((Proc.complete_trigger_burst
          (Proc.start_trigger_burst
            (Proc.complete_trigger_burst
              (Proc.start_trigger_burst
                (Proc.complete_trigger_burst
                  (Proc.start_trigger_burst
                    { Proc.DataProcessor.new with max_cached_bursts := 2 }
                    ⟨100, 0, 0, 0⟩ 1).2).2
                ⟨200, 0, 0, 0⟩ 2).2).2
            ⟨300, 0, 0, 0⟩ 3).2).2.completed_trigger_bursts.map (fun p => p.1)
        = ["trigger_200_2", "trigger_300_3"])
    ∧ Proc.DataProcessor.new.max_cached_bursts = 10
    ∧ (∀ (s : Proc.DataProcessor) (b0 : Proc.TriggerBurst),
        s.current_trigger_burst = some b0 →
        (Proc.insert_kv s.completed_trigger_bursts
            (Proc.calculate_quality_summary { b0 with is_complete := true }).burst_id
            (Proc.calculate_quality_summary { b0 with is_complete := true })).length
          > s.max_cached_bursts →
        ∃ evicted ∈ Proc.insert_kv s.completed_trigger_bursts
            (Proc.calculate_quality_summary { b0 with is_complete := true }).burst_id
            (Proc.calculate_quality_summary { b0 with is_complete := true }),
          (Proc.complete_trigger_burst s).2.completed_trigger_bursts
              = Proc.remove_key
                  (Proc.insert_kv s.completed_trigger_bursts
                    (Proc.calculate_quality_summary { b0 with is_complete := true }).burst_id
                    (Proc.calculate_quality_summary { b0 with is_complete := true }))
                  evicted.1
            ∧ ∀ e ∈ Proc.insert_kv s.completed_trigger_bursts
                  (Proc.calculate_quality_summary { b0 with is_complete := true }).burst_id
                  (Proc.calculate_quality_summary { b0 with is_complete := true }),
                evicted.2.created_at ≤ e.2.created_at) := by
  refine ⟨complete_burst_cache_bound, process_packet_cache_untouched, ?_, ?_, ?_, rfl, rfl,
    complete_burst_evicts_min⟩
  · intro s ev now_ms
    rfl
  · intro s burst_id
    exact remove_key_length_le _ _
  · intro l hl
    exact sort_by_created_headD_min l hl (0, "")

/-- Witness for C5: completing on a fresh processor keeps the cache within
bound, and on the two-element list the sort head is the member with the
least `created_at`. -/
theorem c5_burst_cache_bound_and_eviction_witness :
    ((Proc.complete_trigger_burst Proc.DataProcessor.new).2.completed_trigger_bursts.length
        ≤ Proc.DataProcessor.new.max_cached_bursts)
    ∧ ((Proc.sort_by_created [(5, "b"), (3, "a")]).headD (0, "") ∈
        ([(5, "b"), (3, "a")] : List (Nat × String)))
    ∧ ((Proc.sort_by_created [(5, "b"), (3, "a")]).headD (0, "")).1 ≤ 3 :=
  ⟨c5_burst_cache_bound_and_eviction.1 Proc.DataProcessor.new (by decide),
   (c5_burst_cache_bound_and_eviction.2.2.2.2.1 [(5, "b"), (3, "a")] (by decide)).1,
   (c5_burst_cache_bound_and_eviction.2.2.2.2.1 [(5, "b"), (3, "a")] (by decide)).2
     (3, "a") (by decide)⟩

/-- Helper for C8: a `filterMap` whose function always yields `some` is a
`map`. -/
theorem filterMap_eq_map_of_some {α β : Type} (l : List α) (f : α → Option β) (g : α → β)
    (h : ∀ a ∈ l, f a = some (g a)) : l.filterMap f = l.map g := by
  induction l with
  | nil => rfl
  | cons a as ih =>
    rw [List.filterMap_cons, h a (List.mem_cons_self _ _), List.map_cons,
        ih (fun x hx => h x (List.mem_cons_of_mem _ hx))]

/-- Helper for C8: under the decoder's length law (`channel_count` divides
`data.len()`), the source's `data_idx < packet.data.len()` guard in the CSV
loops never fires, and the per-packet rows are the channel-major
comprehension. -/
theorem export_packet_rows_eq (p : Proc.ProcessedData)
    (hc : 0 < p.channel_count) (hd : p.channel_count ∣ p.data.length) :
    Proc.export_packet_rows p
      = ((List.range p.channel_count).map (fun ch =>
          (List.range (p.data.length / p.channel_count)).map (fun i =>
            ({ timestamp := p.timestamp, channel := ch, sample_index := i,
               value := p.data.getD (ch * (p.data.length / p.channel_count) + i) 0 }
              : Proc.CsvRow)))).flatten := by
  unfold Proc.export_packet_rows
  have hmax : max p.channel_count 1 = p.channel_count := Nat.max_eq_left hc
  dsimp only
  rw [hmax]
  congr 1
  refine List.map_congr_left ?_
  intro ch hch
  have hchlt : ch < p.channel_count := List.mem_range.mp hch
  refine filterMap_eq_map_of_some _ _ _ ?_
  intro i hi
  have hilt : i < p.data.length / p.channel_count := List.mem_range.mp hi
  have hlen : p.channel_count * (p.data.length / p.channel_count) = p.data.length :=
    Nat.mul_div_cancel' hd
  have hidx : ch * (p.data.length / p.channel_count) + i < p.data.length := by
    have h1 : ch * (p.data.length / p.channel_count) + i
        < (ch + 1) * (p.data.length / p.channel_count) := by
      rw [Nat.succ_mul]
      omega
    have h2 : (ch + 1) * (p.data.length / p.channel_count)
        ≤ p.channel_count * (p.data.length / p.channel_count) :=
      Nat.mul_le_mul_right _ (by omega)
    omega
  simp only [hidx, if_pos]

/-- Helper for C8: one row per sample. -/
theorem export_packet_rows_length (p : Proc.ProcessedData)
    (hc : 0 < p.channel_count) (hd : p.channel_count ∣ p.data.length) :
    (Proc.export_packet_rows p).length = p.data.length := by
  rw [export_packet_rows_eq p hc hd]
  rw [List.length_flatten, List.map_map]
  have hconst :
      (List.range p.channel_count).map
          (List.length ∘ fun ch =>
            (List.range (p.data.length / p.channel_count)).map (fun i =>
              ({ timestamp := p.timestamp, channel := ch, sample_index := i,
                 value := p.data.getD (ch * (p.data.length / p.channel_count) + i) 0 }
                : Proc.CsvRow)))
        = List.replicate p.channel_count (p.data.length / p.channel_count) := by
    rw [show (List.length ∘ fun ch =>
          (List.range (p.data.length / p.channel_count)).map (fun i =>
            ({ timestamp := p.timestamp, channel := ch, sample_index := i,
               value := p.data.getD (ch * (p.data.length / p.channel_count) + i) 0 }
              : Proc.CsvRow)))
        = fun _ => p.data.length / p.channel_count from by
          funext ch
          simp]
    simp [List.map_const']
  rw [hconst]
  rw [List.sum_replicate, smul_eq_mul]
  exact Nat.mul_div_cancel' hd

/-- C8 (counterexample).  A trigger packet with `enabled_channels = 0b110`
has physical channel ids 1 and 2 (recorded in `channel_info`), but the CSV
export writes the loop index into the `channel_id` column: its rows carry
channel values 0 and 1.  The `channel_id` column therefore does not give
the channel id of the sample's channel. -/
theorem c8_csv_channel_id_counterexample :
    ((Proc.complete_trigger_burst
        (Proc.process_packet
          (Proc.start_trigger_burst Proc.DataProcessor.new ⟨100, 0, 10, 20⟩ 1).2
          { timestamp_ms := 7, enabled_channels := 6, sample_count := 1,
            sensor_data := [0, 0, 0, 0], data_type := .Trigger 100 false } 0).2).1.map
      (fun b => ((Proc.export_burst_as_csv b).2.map (fun r => r.channel),
                 b.data_packets.map (fun p => p.metadata.channel_info.map
                   (fun c => c.channel_id)))))
      = some ([0, 1], [[1, 2]])
    ∧ ([0, 1] : List Nat) ≠ [1, 2] :=
  ⟨rfl, by decide⟩

/-- C8 (amended).  Exporting a cached burst as CSV produces the header
`timestamp_ms,channel_id,sample_index,value` followed by one row per
sample; within each packet the rows iterate channel-major (all samples of
the first channel slot, then the next), `sample_index` restarts at 0 per
channel, the `value` column walks the packet data in channel-major order —
and the `channel_id` column carries the 0-based channel slot index within
the packet, not the physical channel id from the mask. -/
theorem c8_csv_format (burst : Proc.TriggerBurst)
    (h : ∀ p ∈ burst.data_packets, 0 < p.channel_count ∧ p.channel_count ∣ p.data.length) :
    Proc.csv_header = "timestamp_ms,channel_id,sample_index,value"
    ∧ (Proc.export_burst_as_csv burst).1 = Proc.csv_header
    ∧ (Proc.export_burst_as_csv burst).2.length
        = (burst.data_packets.map (fun p => p.data.length)).sum
    ∧ (∀ p ∈ burst.data_packets,
        Proc.export_packet_rows p
          = ((List.range p.channel_count).map (fun ch =>
              (List.range (p.data.length / p.channel_count)).map (fun i =>
                ({ timestamp := p.timestamp, channel := ch, sample_index := i,
                   value := p.data.getD (ch * (p.data.length / p.channel_count) + i) 0 }
                  : Proc.CsvRow)))).flatten) := by
  refine ⟨rfl, rfl, ?_, ?_⟩
  · rw [Proc.export_burst_as_csv]
    rw [List.length_flatten, List.map_map]
    congr 1
    refine List.map_congr_left ?_
    intro p hp
    exact export_packet_rows_length p (h p hp).1 (h p hp).2
  · intro p hp
    exact export_packet_rows_eq p (h p hp).1 (h p hp).2

/-- Witness for C8 at a one-packet burst with two channel slots and one
sample each. -/
theorem c8_csv_format_witness :
    Proc.csv_header = "timestamp_ms,channel_id,sample_index,value"
    ∧ (Proc.export_burst_as_csv Proc.csv_demo_burst).2.length = 2 := by
  have h := c8_csv_format Proc.csv_demo_burst
    (by
      intro p hp
      rcases List.mem_singleton.mp hp with rfl
      exact ⟨by decide, by decide⟩)
  exact ⟨h.1, h.2.2.1.trans rfl⟩

/-- Helper for C10/C6: `send_command` only advances the sequence byte,
whatever the write outcome. -/
theorem send_command_state (s : Session.DeviceManager) (w : Bool) :
    (Session.send_command s w).1 = { s with seq := (s.seq + 1) % 256 } := by
  unfold Session.send_command
  split_ifs <;> rfl

/-- Helper for C10: the mode commands set `trigger_active`, every other
command leaves it alone. -/
theorem handle_command_trigger_active (s : Session.DeviceManager)
    (c : Session.DeviceCommand) (w : Bool) :
    (Session.handle_command s c w).1.trigger_active
      = (match c with
         | Session.DeviceCommand.SetModeTrigger => true
         | Session.DeviceCommand.SetModeContinuous => false
         | _ => s.trigger_active) := by
  cases c <;>
    (simp only [Session.handle_command, send_command_state]
     try (split_ifs <;> simp [send_command_state]))

/-- Helper for C10: the mode commands clear `current_trigger`, every other
command leaves it alone. -/
theorem handle_command_current_trigger (s : Session.DeviceManager)
    (c : Session.DeviceCommand) (w : Bool) :
    (Session.handle_command s c w).1.current_trigger
      = (match c with
         | Session.DeviceCommand.SetModeTrigger => none
         | Session.DeviceCommand.SetModeContinuous => none
         | _ => s.current_trigger) := by
  cases c <;>
    (simp only [Session.handle_command, send_command_state]
     try (split_ifs <;> simp [send_command_state]))

/-- Helper for C10: frames never change `trigger_active`. -/
theorem handle_frame_trigger_active (s : Session.DeviceManager) (f : Codec.RawFrame) :
    (Session.handle_frame s f).1.trigger_active = s.trigger_active := by
  unfold Session.handle_frame
  dsimp only
  split_ifs <;> rfl

/-- Helper for C10: `current_trigger` is set by a well-formed `0x41` frame
and untouched by every other frame (in particular by `0x4F`). -/
theorem handle_frame_current_trigger (s : Session.DeviceManager) (f : Codec.RawFrame) :
    (Session.handle_frame s f).1.current_trigger
      = if f.command_id = 0x41 ∧ f.payload.length ≥ 14
        then some { timestamp := Session.read_u32 f.payload 0,
                    channel := Session.read_u16 f.payload 4,
                    pre_samples := Session.read_u32 f.payload 6,
                    post_samples := Session.read_u32 f.payload 10 }
        else s.current_trigger := by
  unfold Session.handle_frame
  dsimp only
  split_ifs <;> first
    | rfl
    | (exfalso; omega)

theorem run_append (xs : List Session.Input) (i : Session.Input) :
    Session.run (xs ++ [i]) = Session.step (Session.run xs) i := by
  simp [Session.run, List.foldl_append]

theorem spec_in_trigger_append (xs : List Session.Input) (i : Session.Input) :
    Session.spec_in_trigger (xs ++ [i])
      = Session.spec_in_step (Session.spec_in_trigger xs) i := by
  simp [Session.spec_in_trigger, List.foldl_append]

theorem spec_since_append (xs : List Session.Input) (i : Session.Input) :
    Session.spec_trigger_since_entry (xs ++ [i])
      = Session.spec_since_step (Session.spec_trigger_since_entry xs) i := by
  simp [Session.spec_trigger_since_entry, List.foldl_append]

/-- Helper for C10, the session invariant: `trigger_active` tracks the
spec-level in-trigger-mode fold, and while in trigger mode the stored
trigger's timestamp is exactly the last well-formed `0x41` received since
trigger mode was last entered. -/
theorem c10_invariant (inputs : List Session.Input) :
    (Session.run inputs).trigger_active = Session.spec_in_trigger inputs
    ∧ ((Session.run inputs).trigger_active = true →
       (Session.run inputs).current_trigger.map (fun e => e.timestamp)
         = Session.spec_trigger_since_entry inputs) := by
  induction inputs using List.reverseRecOn with
  | nil =>
    refine ⟨rfl, ?_⟩
    intro h
    simp [Session.run, Session.DeviceManager.new] at h
  | append_singleton xs i ih =>
    obtain ⟨ih1, ih2⟩ := ih
    rw [run_append, spec_in_trigger_append, spec_since_append]
    cases i with
    | cmd c w =>
      have hfa := handle_command_trigger_active (Session.run xs) c w
      have hfcur := handle_command_current_trigger (Session.run xs) c w
      cases c <;>
        exact ⟨by simp only [Session.step]; rw [hfa, ih1]; rfl,
               by intro hact
                  simp only [Session.step] at hact ⊢
                  rw [hfa] at hact
                  dsimp only at hact
                  rw [hfcur]
                  first
                    | rfl
                    | exact ih2 hact⟩
    | frame f =>
      have hfa := handle_frame_trigger_active (Session.run xs) f
      have hfc := handle_frame_current_trigger (Session.run xs) f
      refine ⟨by simp only [Session.step]; rw [hfa, ih1]; rfl, ?_⟩
      intro hact
      simp only [Session.step] at hact ⊢
      rw [hfa] at hact
      rw [hfc]
      simp only [Session.spec_since_step]
      by_cases hwf : f.command_id = 0x41 ∧ f.payload.length ≥ 14
      · rw [if_pos hwf, if_pos hwf]
        simp
      · rw [if_neg hwf, if_neg hwf]
        exact ih2 hact

/-- Helper for C10: the events emitted for a well-formed `0x40` data frame:
one `DataPacket` labelled from the current trigger-mode state, then the
unconditional `FrameReceived`. -/
theorem handle_frame_data_packet (s : Session.DeviceManager) (f : Codec.RawFrame)
    (hcmd : f.command_id = 0x40) (hlen : f.payload.length ≥ 8) :
    (Session.handle_frame s f).2
      = [Session.DeviceEvent.DataPacket
          { timestamp_ms := Session.read_u32 f.payload 0
            enabled_channels := Session.read_u16 f.payload 4
            sample_count := Session.read_u16 f.payload 6
            sensor_data := f.payload.drop 8
            data_type :=
              if s.trigger_active ∧ s.current_trigger.isSome then
                .Trigger ((s.current_trigger.getD ⟨0, 0, 0, 0⟩).timestamp) false
              else .Continuous },
         .FrameReceived f] := by
  simp [Session.handle_frame, hcmd, hlen]

/-- C10.  Implicit trigger-labeling rule: a well-formed inbound `0x40`
frame arriving after any input history is emitted as a `DataPacket` whose
`data_type` is `Trigger ts` exactly when the session is in trigger mode
and `ts` is the timestamp of the (well-formed) `0x41` trigger-event frame
last received since trigger mode was last entered — so packets arriving in
trigger mode before the first `TriggerEvent` are labelled `Continuous`, and
a `0x4F` `BufferTransferComplete` frame changes neither `trigger_active`
nor the stored trigger, so later packets still carry the previous
trigger's timestamp. -/
theorem c10_trigger_labeling (inputs : List Session.Input) (f : Codec.RawFrame)
    (hcmd : f.command_id = 0x40) (hlen : f.payload.length ≥ 8) :
    (∀ pkt : Device.DataPacket,
      Session.DeviceEvent.DataPacket pkt
          ∈ (Session.handle_frame (Session.run inputs) f).2 →
      ((∀ ts : Nat, pkt.data_type = .Trigger ts false ↔
          (Session.spec_in_trigger inputs = true
           ∧ Session.spec_trigger_since_entry inputs = some ts))
       ∧ (pkt.data_type = .Continuous ↔
          ¬(Session.spec_in_trigger inputs = true
            ∧ (Session.spec_trigger_since_entry inputs).isSome = true))))
    ∧ (∀ g : Codec.RawFrame, g.command_id = 0x4F →
        (Session.handle_frame (Session.run inputs) g).1.trigger_active
            = (Session.run inputs).trigger_active
        ∧ (Session.handle_frame (Session.run inputs) g).1.current_trigger
            = (Session.run inputs).current_trigger) := by
  obtain ⟨hact, hcur⟩ := c10_invariant inputs
  constructor
  · intro pkt hmem
    rw [handle_frame_data_packet (Session.run inputs) f hcmd hlen] at hmem
    simp only [List.mem_cons, List.mem_singleton, or_false, reduceCtorEq] at hmem
    rcases hmem with hmem | hmem
    · rw [Session.DeviceEvent.DataPacket.injEq] at hmem
      subst hmem
      cases hb : (Session.run inputs).trigger_active with
      | false =>
        rw [hb] at hact
        constructor
        · intro ts
          simp [← hact]
        · simp [← hact]
      | true =>
        have hmap := hcur hb
        rw [hb] at hact
        cases hct : (Session.run inputs).current_trigger with
        | none =>
          rw [hct] at hmap
          simp only [Option.map_none'] at hmap
          constructor
          · intro ts
            simp [hb, hct, ← hact, ← hmap]
          · simp [hb, hct, ← hact, ← hmap]
        | some ev =>
          rw [hct] at hmap
          simp only [Option.map_some'] at hmap
          constructor
          · intro ts
            simp only [hb, hct, Option.isSome_some, and_self, if_pos, true_and,
              Option.getD_some, ← hact, ← hmap]
            simp [Device.DataType.Trigger.injEq]
          · simp [hb, hct, ← hact, ← hmap]
    · exact absurd hmem (by simp)
  · intro g hg
    constructor <;> simp [Session.handle_frame, hg]

/-- Witness for C10: after entering trigger mode and receiving a `0x41`
with timestamp 0, an 8-byte `0x40` frame is emitted as a `DataPacket`
labelled `Trigger 0`. -/
theorem c10_trigger_labeling_witness :
    (Session.DeviceEvent.DataPacket
        { timestamp_ms := 0, enabled_channels := 0, sample_count := 0,
          sensor_data := [], data_type := .Trigger 0 false }
      ∈ (Session.handle_frame
          (Session.run
            [Session.Input.cmd .SetModeTrigger true,
             Session.Input.frame ⟨0x41, 0, [0, 0, 0, 0, 0, 0, 0, 0, 0, 0, 0, 0, 0, 0]⟩])
          ⟨0x40, 0, [0, 0, 0, 0, 0, 0, 0, 0]⟩).2)
    ∧ (({ timestamp_ms := 0, enabled_channels := 0, sample_count := 0,
          sensor_data := [], data_type := .Trigger 0 false } : Device.DataPacket).data_type
        = Device.DataType.Trigger 0 false) := by
  have h := (c10_trigger_labeling
      [Session.Input.cmd .SetModeTrigger true,
       Session.Input.frame ⟨0x41, 0, [0, 0, 0, 0, 0, 0, 0, 0, 0, 0, 0, 0, 0, 0]⟩]
      ⟨0x40, 0, [0, 0, 0, 0, 0, 0, 0, 0]⟩ rfl (by decide)).1
      { timestamp_ms := 0, enabled_channels := 0, sample_count := 0,
        sensor_data := [], data_type := .Trigger 0 false }
      (by decide)
  exact ⟨by decide, (h.1 0).mpr ⟨rfl, rfl⟩⟩
